import Mathlib

/-!
A shallow embedding of the evaluator in `src/eval.cpp` (the `waffle`
term evaluator), together with theorems settling the specification
claims about it.

Modelling conventions:

* `Term` mirrors the C++ `Term` AST nodes.  A C++ `Ref` holds a pointer
  to a declaration; a declaration is either a `Def` (modelled by an
  index `d` into an explicit declaration store) or a parameter binding
  (modelled by `Term.var`).  A C++ `Def` node owns a mutable value slot;
  we model that slot in the store, so the term node is just `Term.def_ d`.
* The store is a list of cells.  A cell `some t` is a `Def` whose value
  is the term `t`; a cell `none` is a `Def` whose value is not a term
  (a type), which is exactly the case in which the C++ `as<Term>` cast
  yields `nullptr`.
* Machine effects are explicit: evaluation returns the produced value
  (`Option Term`, `none` modelling a returned `nullptr`), the input node
  after any in-place mutations (the C++ code mutates `Call` argument
  sequences in place, and `Def` value slots through the store), the
  updated store, and the chunks written to the output stream.
* C++ behaviour that aborts via `lang_assert`/`lang_unreachable` is
  `Outcome.fatal`; genuine undefined behaviour in the source (a missing
  `return`, a read of an uninitialized variable or pointer) is
  `Outcome.undef`.  Recursion is paid for with explicit fuel;
  exhaustion is `Outcome.oot` (the C++ program would simply not have
  terminated, or blown the stack).
-/

/-- The AST node kinds of `ast.hpp` that `eval.cpp` dispatches on.
Payloads follow the source: e.g. `Fn` carries a parameter-name sequence
and a body, `Call` a target and an argument sequence, `Table` a schema
(a sequence of `Name` terms) and a member sequence (of `Record`s), and
`Record` a sequence of `Init` (label/value) bindings. -/
inductive Term where
  | true_ | false_
  | int (z : Int)
  | unit
  | if_ (c t e : Term)
  | succ (t : Term)
  | pred (t : Term)
  | iszero (t : Term)
  | abs (x : String) (body : Term)
  | app (f a : Term)
  | fn (parms : List String) (body : Term)
  | call (f : Term) (args : List Term)
  | var (x : String)
  | ref (d : Nat)
  | def_ (d : Nat)
  | print (e : Term)
  | prog (stmts : List Term)
  | comma (items : List Term)
  | and_ (a b : Term)
  | or_ (a b : Term)
  | not_ (a : Term)
  | equals (a b : Term)
  | less (a b : Term)
  | name (s : String)
  | init (n : String) (v : Term)
  | record (members : List Term)
  | table (schema : List Term) (members : List Term)
  | mem (r m : Term)
  | proj (t : Term)
  | select_from_where (t1 t2 t3 : Term)
  | join (t : Term)
  | union (a b : Term)
  | intersect (a b : Term)
  | except_ (a b : Term)

/-- The declaration store: cell `d` holds the current value slot of the
`Def` with index `d` (`some t` = the slot holds term `t`; `none` = the
slot holds a non-term value, i.e. a type). -/
abbrev Store := List (Option Term)

/-- The result of running a piece of the evaluator: a produced value of
type `α` together with the updated store and the output chunks written,
or abnormal termination (`fatal` = `lang_assert`/`lang_unreachable`
abort, `undef` = source-level undefined behaviour, `oot` = fuel
exhaustion standing in for non-termination). -/
inductive Outcome (α : Type) where
  | ok (a : α) (s : Store) (out : List String)
  | fatal (out : List String)
  | undef (out : List String)
  | oot

/-- Prepend previously written output chunks to an outcome. -/
def Outcome.withOut (o : List String) : Outcome α → Outcome α
  | .ok a s out => .ok a s (o ++ out)
  | .fatal out => .fatal (o ++ out)
  | .undef out => .undef (o ++ out)
  | .oot => .oot

/-- Sequencing of evaluator steps: on success feed the produced value
and the updated store onward, accumulating output in order. -/
def Outcome.bind (r : Outcome α) (f : α → Store → Outcome β) : Outcome β :=
  match r with
  | .ok a s out => (f a s).withOut out
  | .fatal o => .fatal o
  | .undef o => .undef o
  | .oot => .oot

/-- The result type of `eval`: the produced value (`none` models a
returned `nullptr`) paired with the input node after in-place
mutations. -/
abbrev Res := Outcome (Option Term × Term)

mutual
/-- Boolean structural equality on terms.

Modelled from the spec: the structural-equality service `is_same` lives
in `value.cpp`, which is not in `src/`; §4.2 describes it as structural
value equality.  We model it as syntactic equality of term trees (the
spec additionally allows records to compare equal irrespective of field
order and tables by set-equality; no claim settled below depends on
that refinement — every use either compares `Name` nodes or is on a
code path that ends in undefined behaviour). -/
def is_same : Term → Term → Bool
  | .true_, .true_ => true
  | .false_, .false_ => true
  | .int a, .int b => a = b
  | .unit, .unit => true
  | .if_ a b c, .if_ a2 b2 c2 => is_same a a2 && is_same b b2 && is_same c c2
  | .succ a, .succ b => is_same a b
  | .pred a, .pred b => is_same a b
  | .iszero a, .iszero b => is_same a b
  | .abs x a, .abs y b => x = y && is_same a b
  | .app a b, .app a2 b2 => is_same a a2 && is_same b b2
  | .fn ps a, .fn qs b => ps = qs && is_same a b
  | .call a as_, .call b bs => is_same a b && is_same_list as_ bs
  | .var x, .var y => x = y
  | .ref d, .ref e => d = e
  | .def_ d, .def_ e => d = e
  | .print a, .print b => is_same a b
  | .prog as_, .prog bs => is_same_list as_ bs
  | .comma as_, .comma bs => is_same_list as_ bs
  | .and_ a b, .and_ a2 b2 => is_same a a2 && is_same b b2
  | .or_ a b, .or_ a2 b2 => is_same a a2 && is_same b b2
  | .not_ a, .not_ b => is_same a b
  | .equals a b, .equals a2 b2 => is_same a a2 && is_same b b2
  | .less a b, .less a2 b2 => is_same a a2 && is_same b b2
  | .name x, .name y => x = y
  | .init n a, .init m b => n = m && is_same a b
  | .record as_, .record bs => is_same_list as_ bs
  | .table s1 m1, .table s2 m2 => is_same_list s1 s2 && is_same_list m1 m2
  | .mem a b, .mem a2 b2 => is_same a a2 && is_same b b2
  | .proj a, .proj b => is_same a b
  | .select_from_where a b c, .select_from_where a2 b2 c2 =>
      is_same a a2 && is_same b b2 && is_same c c2
  | .join a, .join b => is_same a b
  | .union a b, .union a2 b2 => is_same a a2 && is_same b b2
  | .intersect a b, .intersect a2 b2 => is_same a a2 && is_same b b2
  | .except_ a b, .except_ a2 b2 => is_same a a2 && is_same b b2
  | _, _ => false

/-- Elementwise structural equality of term sequences. -/
def is_same_list : List Term → List Term → Bool
  | [], [] => true
  | a :: as_, b :: bs => is_same a b && is_same_list as_ bs
  | _, _ => false
end

/-- `is_true` of `value.cpp` lifted to possibly-null results: only the
`True` node is true.  (A null argument is treated as not-true.) -/
def is_true : Option Term → Bool
  | some .true_ => true
  | _ => false

/-- `is_false` of `value.cpp` lifted to possibly-null results. -/
def is_false : Option Term → Bool
  | some .false_ => true
  | _ => false

/-- Modelled from the spec: the ordering service `is_less` lives in
`value.cpp`, outside `src/`.  §4.2 defines it on integers as numeric
`<` and notes the reference silently yields `false` on non-integer
operands. -/
def is_less : Term → Term → Bool
  | .int a, .int b => a < b
  | _, _ => false

/-- Modelled from the spec: the external pretty-printing service
`pretty(value) -> text` (§6); `eval.cpp` only calls it.  Only the
renderings of scalar values are observable in the claims below. -/
def prettyT : Term → String
  | .true_ => "true"
  | .false_ => "false"
  | .int z => toString z
  | .unit => "unit"
  | .abs _ _ => "<abs>"
  | .fn _ _ => "<fn>"
  | .table _ _ => "<table>"
  | .record _ => "<record>"
  | _ => "<expr>"

mutual
/-- Free parameter references of a term (used by the substitution
model's capture check).  `Ref`s to `Def` declarations are not
parameter references. -/
def freeVars : Term → List String
  | .var x => [x]
  | .abs x b => (freeVars b).filter (fun y => y ≠ x)
  | .fn ps b => (freeVars b).filter (fun y => !ps.contains y)
  | .if_ c t e => freeVars c ++ freeVars t ++ freeVars e
  | .succ t => freeVars t
  | .pred t => freeVars t
  | .iszero t => freeVars t
  | .app f a => freeVars f ++ freeVars a
  | .call f args => freeVars f ++ freeVarsList args
  | .print e => freeVars e
  | .prog ts => freeVarsList ts
  | .comma ts => freeVarsList ts
  | .and_ a b => freeVars a ++ freeVars b
  | .or_ a b => freeVars a ++ freeVars b
  | .not_ a => freeVars a
  | .equals a b => freeVars a ++ freeVars b
  | .less a b => freeVars a ++ freeVars b
  | .init _ v => freeVars v
  | .record ms => freeVarsList ms
  | .table s ms => freeVarsList s ++ freeVarsList ms
  | .mem r m => freeVars r ++ freeVars m
  | .proj t => freeVars t
  | .select_from_where a b c => freeVars a ++ freeVars b ++ freeVars c
  | .join t => freeVars t
  | .union a b => freeVars a ++ freeVars b
  | .intersect a b => freeVars a ++ freeVars b
  | .except_ a b => freeVars a ++ freeVars b
  | _ => []

/-- Free parameter references of a term sequence. -/
def freeVarsList : List Term → List String
  | [] => []
  | t :: ts => freeVars t ++ freeVarsList ts
end

/-- Candidate generator for fresh names: try `x_0`, `x_1`, …. -/
def freshAux (x : String) (avoid : List String) : Nat → String
  | 0 => x
  | n + 1 =>
      let c := x ++ "_" ++ toString n
      if avoid.contains c then freshAux x avoid n else c

/-- Modelled from the spec: the renaming scheme of the external
substitution engine (§9: "fresh-name generation scoped to the
substitution call").  Produces a name based on `x` avoiding `avoid`. -/
def freshName (x : String) (avoid : List String) : String :=
  if avoid.contains x then freshAux x avoid (avoid.length + 1) else x

mutual
/-- Modelled from the spec: the capture-avoiding simultaneous
substitution engine `subst_term` lives in `subst.cpp`, outside `src/`.
Its contract (§2, §4.3, §9): given a mapping from bound parameter names
to argument values, rebuild the term with free occurrences replaced
simultaneously, renaming bound variables that would otherwise capture a
free variable of an inserted value.  `Ref`s to declarations are not
parameter occurrences and are left alone. -/
def subst (σ : List (String × Term)) : Term → Term
  | .var x =>
      match σ.lookup x with
      | some v => v
      | none => .var x
  | .abs x b =>
      let σ2 := σ.filter (fun p => p.1 ≠ x)
      if σ2.isEmpty then .abs x b
      else
        let clash := (σ2.map (fun p => freeVars p.2)).flatten
        if clash.contains x then
          let x2 := freshName x (clash ++ σ2.map (fun p => p.1) ++ freeVars b)
          .abs x2 (subst (σ2 ++ [(x, .var x2)]) b)
        else .abs x (subst σ2 b)
  | .fn ps b =>
      let σ2 := σ.filter (fun p => !ps.contains p.1)
      if σ2.isEmpty then .fn ps b
      else
        let clash := (σ2.map (fun p => freeVars p.2)).flatten
        let rens := ps.map (fun p =>
          if clash.contains p then (p, freshName p (clash ++ ps ++ freeVars b)) else (p, p))
        .fn (rens.map (fun r => r.2))
          (subst (σ2 ++ rens.filterMap (fun r =>
            if r.1 = r.2 then none else some (r.1, Term.var r.2))) b)
  | .true_ => .true_
  | .false_ => .false_
  | .int z => .int z
  | .unit => .unit
  | .if_ c t e => .if_ (subst σ c) (subst σ t) (subst σ e)
  | .succ t => .succ (subst σ t)
  | .pred t => .pred (subst σ t)
  | .iszero t => .iszero (subst σ t)
  | .app f a => .app (subst σ f) (subst σ a)
  | .call f args => .call (subst σ f) (substList σ args)
  | .ref d => .ref d
  | .def_ d => .def_ d
  | .print e => .print (subst σ e)
  | .prog ts => .prog (substList σ ts)
  | .comma ts => .comma (substList σ ts)
  | .and_ a b => .and_ (subst σ a) (subst σ b)
  | .or_ a b => .or_ (subst σ a) (subst σ b)
  | .not_ a => .not_ (subst σ a)
  | .equals a b => .equals (subst σ a) (subst σ b)
  | .less a b => .less (subst σ a) (subst σ b)
  | .name s => .name s
  | .init n v => .init n (subst σ v)
  | .record ms => .record (substList σ ms)
  | .table s ms => .table (substList σ s) (substList σ ms)
  | .mem r m => .mem (subst σ r) (subst σ m)
  | .proj t => .proj (subst σ t)
  | .select_from_where a b c =>
      .select_from_where (subst σ a) (subst σ b) (subst σ c)
  | .join t => .join (subst σ t)
  | .union a b => .union (subst σ a) (subst σ b)
  | .intersect a b => .intersect (subst σ a) (subst σ b)
  | .except_ a b => .except_ (subst σ a) (subst σ b)

/-- `subst` mapped over a term sequence. -/
def substList (σ : List (String × Term)) : List Term → List Term
  | [] => []
  | t :: ts => subst σ t :: substList σ ts
end

/-- The value classifier (spec §3): the normal-form shapes are `True`,
`False`, `Int`, `Unit`, `Abs`, `Fn`, `Table`, `Record`. -/
def isValue : Term → Bool
  | .true_ => true
  | .false_ => true
  | .int _ => true
  | .unit => true
  | .abs _ _ => true
  | .fn _ _ => true
  | .table _ _ => true
  | .record _ => true
  | _ => false

/-- `eval_if` (`src/eval.cpp:44`): evaluate the condition; on `true`
evaluate the then-branch, on `false` the else-branch; anything else is
`lang_unreachable`. -/
def eval_if (ev : Store → Term → Res) (s : Store) (c t1 t2 : Term) : Res :=
  (ev s c).bind fun (bv, c2) s1 =>
    if is_true bv then
      (ev s1 t1).bind fun (v, t1b) s2 => .ok (v, .if_ c2 t1b t2) s2 []
    else if is_false bv then
      (ev s1 t2).bind fun (v, t2b) s2 => .ok (v, .if_ c2 t1 t2b) s2 []
    else .fatal []

/-- `eval_succ` (`src/eval.cpp:61`): evaluate the argument to an
integer `z` and build `z + 1`; otherwise `lang_unreachable`. -/
def eval_succ (ev : Store → Term → Res) (s : Store) (a : Term) : Res :=
  (ev s a).bind fun (v, a2) s1 =>
    match v with
    | some (.int z) => .ok (some (.int (z + 1)), .succ a2) s1 []
    | _ => .fatal []

/-- `eval_pred` (`src/eval.cpp:82`): evaluate the argument to an
integer `z`; at `0` return the argument's value node itself (predecessor
saturates), else build `z - 1`; otherwise `lang_unreachable`. -/
def eval_pred (ev : Store → Term → Res) (s : Store) (a : Term) : Res :=
  (ev s a).bind fun (v, a2) s1 =>
    match v with
    | some (.int z) =>
        if z = 0 then .ok (some (.int z), .pred a2) s1 []
        else .ok (some (.int (z - 1)), .pred a2) s1 []
    | _ => .fatal []

/-- `eval_iszero` (`src/eval.cpp:104`): evaluate the argument to an
integer; `0` yields `True`, anything else `False`; non-integers are
`lang_unreachable`. -/
def eval_iszero (ev : Store → Term → Res) (s : Store) (a : Term) : Res :=
  (ev s a).bind fun (v, a2) s1 =>
    match v with
    | some (.int z) =>
        if z = 0 then .ok (some .true_, .iszero a2) s1 []
        else .ok (some .false_, .iszero a2) s1 []
    | _ => .fatal []

/-- `eval_app` (`src/eval.cpp:126`): evaluate the target, which must be
an `Abs` (`lang_assert` otherwise); evaluate the argument; substitute
it for the bound variable in the body and evaluate the result.  A null
argument value would be handed to the substitution engine
(undefined behaviour). -/
def eval_app (ev : Store → Term → Res) (s : Store) (fE aE : Term) : Res :=
  (ev s fE).bind fun (vf, f2) s1 =>
    match vf with
    | some (.abs x body) =>
        (ev s1 aE).bind fun (va, a2) s2 =>
          match va with
          | some v =>
              (ev s2 (subst [(x, v)] body)).bind fun (r, _) s3 =>
                .ok (r, .app f2 a2) s3 []
          | none => .undef []
    | _ => .fatal []

/-- The argument loop of `eval_call` (`src/eval.cpp:152`): each
argument is evaluated left-to-right and its result written back over
the entry in the argument sequence ("evaluate arguments in place"),
so the sequence entries become the (possibly null) result pointers. -/
def evalSeq (ev : Store → Term → Res) : Store → List Term → Outcome (List (Option Term))
  | s, [] => .ok [] s []
  | s, a :: as_ =>
      (ev s a).bind fun (v, _) s1 =>
        (evalSeq ev s1 as_).bind fun vs s2 => .ok (v :: vs) s2 []

/-- Collect a fully evaluated argument sequence; `none` if any entry is
a null pointer. -/
def allSome : List (Option Term) → Option (List Term)
  | [] => some []
  | some t :: ts => (allSome ts).map (fun l => t :: l)
  | none :: _ => none

/-- `eval_call` (`src/eval.cpp:143`): evaluate the target, which must
be an `Fn` (`lang_assert` otherwise); evaluate the arguments
left-to-right in place; substitute all parameters simultaneously and
evaluate the result.  The node's argument sequence now holds the
evaluated arguments.  The simultaneous substitution and its arity check
are the external `Subst` engine's contract, modelled from the spec
(§4.3: "arity mismatch … is fatal"); a null argument pointer handed to
it is undefined behaviour. -/
def eval_call (ev : Store → Term → Res) (s : Store) (fE : Term) (args : List Term) : Res :=
  (ev s fE).bind fun (vf, f2) s1 =>
    match vf with
    | some (.fn parms body) =>
        (evalSeq ev s1 args).bind fun ovs s2 =>
          match allSome ovs with
          | some vs =>
              if parms.length = vs.length then
                (ev s2 (subst (parms.zip vs) body)).bind fun (r, _) s3 =>
                  .ok (r, .call f2 vs) s3 []
              else .fatal []
          | none => .undef []
    | _ => .fatal []

/-- `eval_ref` (`src/eval.cpp:169`): a reference to a `Def` whose value
is a term yields that stored value as-is — no evaluation, no mutation;
a reference to a `Def` whose value is a type yields `nullptr`; a
reference to anything else (a parameter binding — here an out-of-range
index) is returned unchanged. -/
def eval_ref (s : Store) (d : Nat) : Res :=
  match s[d]? with
  | some (some w) => .ok (some w, .ref d) s []
  | some none => .ok (none, .ref d) s []
  | none => .ok (some (.ref d), .ref d) s []

/-- `eval_def` (`src/eval.cpp:184`): when the stored value is a term,
evaluate it and overwrite the declaration's value slot with the result
(`t->t2 = eval(t0)`) — the memoizing mutation; otherwise return the
declaration untouched.  The result is the `Def` node itself. -/
def eval_def (ev : Store → Term → Res) (s : Store) (d : Nat) : Res :=
  match s[d]? with
  | some (some t0) =>
      (ev s t0).bind fun (v, _) s1 =>
        .ok (some (.def_ d), .def_ d) (s1.set d v) []
  | _ => .ok (some (.def_ d), .def_ d) s []

/-- `eval_print` (`src/eval.cpp:211`): evaluate the expression; print
the resulting value — or, when the result is `nullptr` (a reference to
a type), the raw expression — as one line; produce `Unit`. -/
def eval_print (ev : Store → Term → Res) (s : Store) (e : Term) : Res :=
  (ev s e).bind fun (v, e2) s1 =>
    match v with
    | some val => .ok (some .unit, .print e2) s1 [prettyT val ++ "\n"]
    | none => .ok (some .unit, .print e2) s1 [prettyT e2 ++ "\n"]

/-- `eval_comma` (`src/eval.cpp:229`): the items are not evaluated
(`FIXME` in the source); the result is `Unit`. -/
def eval_comma (s : Store) (items : List Term) : Res :=
  .ok (some .unit, .comma items) s []

/-- The statement loop of `eval_prog` (`src/eval.cpp:243`): evaluate
each statement in order, keeping the last result. -/
def evalStmts (ev : Store → Term → Res) : Store → List Term → Outcome (Option Term × List Term)
  | s, [] => .ok (none, []) s []
  | s, [t] => (ev s t).bind fun (v, t2) s1 => .ok (v, [t2]) s1 []
  | s, t :: ts =>
      (ev s t).bind fun (_, t2) s1 =>
        (evalStmts ev s1 ts).bind fun (v, ts2) s2 => .ok (v, t2 :: ts2) s2 []

/-- `eval_prog` (`src/eval.cpp:240`): evaluate every statement in turn;
the result is the last statement's value.  The result variable `tn` is
declared uninitialized, so an empty statement sequence returns an
uninitialized value — undefined behaviour, not an explicit rejection. -/
def eval_prog (ev : Store → Term → Res) (s : Store) (stmts : List Term) : Res :=
  match stmts with
  | [] => .undef []
  | _ =>
      (evalStmts ev s stmts).bind fun (v, us) s1 => .ok (v, .prog us) s1 []

/-- `eval_and` (`src/eval.cpp:265`): both operands are evaluated
unconditionally; `True` iff both are `true` (non-boolean operands
silently yield `False`). -/
def eval_and (ev : Store → Term → Res) (s : Store) (a b : Term) : Res :=
  (ev s a).bind fun (v1, a2) s1 =>
    (ev s1 b).bind fun (v2, b2) s2 =>
      .ok (some (if is_true v1 && is_true v2 then .true_ else .false_), .and_ a2 b2) s2 []

/-- `eval_or` (`src/eval.cpp:294`): both operands are evaluated
unconditionally; `False` iff both are `false` (non-boolean operands
silently yield `True`). -/
def eval_or (ev : Store → Term → Res) (s : Store) (a b : Term) : Res :=
  (ev s a).bind fun (v1, a2) s1 =>
    (ev s1 b).bind fun (v2, b2) s2 =>
      .ok (some (if is_false v1 && is_false v2 then .false_ else .true_), .or_ a2 b2) s2 []

/-- `eval_not` (`src/eval.cpp:315`): evaluate the operand; `true`
negates to `False` and `false` to `True`; for any other operand the
function falls off its end without a `return` — undefined behaviour. -/
def eval_not (ev : Store → Term → Res) (s : Store) (a : Term) : Res :=
  (ev s a).bind fun (v, a2) s1 =>
    if is_true v then .ok (some .false_, .not_ a2) s1 []
    else if is_false v then .ok (some .true_, .not_ a2) s1 []
    else .undef []

/-- `eval_equals` (`src/eval.cpp:335`): evaluate both operands and
compare with `is_same`.  A null operand pointer handed to `is_same`
is undefined behaviour. -/
def eval_equals (ev : Store → Term → Res) (s : Store) (a b : Term) : Res :=
  (ev s a).bind fun (v1, a2) s1 =>
    (ev s1 b).bind fun (v2, b2) s2 =>
      match v1, v2 with
      | some x, some y =>
          .ok (some (if is_same x y then .true_ else .false_), .equals a2 b2) s2 []
      | _, _ => .undef []

/-- `eval_less` (`src/eval.cpp:356`): evaluate both operands; the
source then writes `pretty(t1)` and `pretty(t2)` to `std::cout`
(leftover debug output) before comparing with `is_less`. -/
def eval_less (ev : Store → Term → Res) (s : Store) (a b : Term) : Res :=
  (ev s a).bind fun (v1, a2) s1 =>
    (ev s1 b).bind fun (v2, b2) s2 =>
      match v1, v2 with
      | some x, some y =>
          .ok (some (if is_less x y then .true_ else .false_), .less a2 b2) s2
            [prettyT x, prettyT y]
      | _, _ => .undef []

/-- `eval_record_project` (`src/eval.cpp:378`): scan the record's
members for an `Init` whose name matches the label `l`; return its
value, or null when nothing matches.  (The source would dereference a
null pointer if `l` were not a `Name` or a member not an `Init`; this
model returns null there — in `eval_mem` the result is discarded
either way.) -/
def eval_record_project (l : Option Term) : List Term → Option Term
  | [] => none
  | .init n v :: rest =>
      match l with
      | some (.name s) => if s = n then some v else eval_record_project l rest
      | _ => none
  | _ :: _ => none

/-- `eval_table_project` (`src/eval.cpp:391`): a stub — returns the
table unchanged. -/
def eval_table_project (_project : Option Term) (t : Term) : Term := t

/-- `eval_proj` (`src/eval.cpp:398`): an empty stub that falls off its
end — undefined behaviour. -/
def eval_proj (s : Store) : Res :=
  let _ := s
  .undef []

/-- `eval_mem` (`src/eval.cpp:404`): switches on the kind of the
*unevaluated* target.  The `record_term` case computes
`eval_record_project(eval(member), eval(record))`, discards the result
and — lacking `return` and `break` — falls through into the
`table_term` case, which evaluates member and record again, discards
`eval_table_project`'s result, and falls off the function's end:
undefined behaviour on every path. -/
def eval_mem (ev : Store → Term → Res) (s : Store) (r m : Term) : Res :=
  match r with
  | .record mems =>
      (ev s m).bind fun (lv, _) s1 =>
        (ev s1 r).bind fun _ s2 =>
          let _ := eval_record_project lv mems
          (ev s2 m).bind fun (lv2, _) s3 =>
            (ev s3 r).bind fun (rv2, _) _s4 =>
              let _ := eval_table_project lv2 (match rv2 with | some t => t | none => r)
              .undef []
  | .table _ _ =>
      (ev s m).bind fun (lv2, _) s1 =>
        (ev s1 r).bind fun (rv2, _) _s2 =>
          let _ := eval_table_project lv2 (match rv2 with | some t => t | none => r)
          .undef []
  | _ => .undef []

/-- `eval_table_select` (`src/eval.cpp:412`) is an empty loop over the
records followed by no `return`, and `eval_select_from_where`
(`src/eval.cpp:430`) feeds it the *unevaluated* source operand (no
operand evaluation happens): undefined behaviour with no effects. -/
def eval_select_from_where (s : Store) : Res :=
  let _ := s
  .undef []

/-- `eval_join` (`src/eval.cpp:440`): a body of comments only, no
`return` — undefined behaviour with no effects. -/
def eval_join (s : Store) : Res :=
  let _ := s
  .undef []

/-- `eval_intersect_table` (`src/eval.cpp:451`): the accumulator
`Table* result` is never initialized, and matching records are pushed
through it (`result->t1->push_back`) — undefined behaviour whether or
not any record matches, since the uninitialized `result` is also the
return value. -/
def eval_intersect_table : Res := .undef []

/-- `eval_intersect` (`src/eval.cpp:464`): evaluate both operands; a
table hits the uninitialized-accumulator `eval_intersect_table`, and
any other kind falls off the switch without a `return` — undefined
behaviour either way, after both operands' effects. -/
def eval_intersect (ev : Store → Term → Res) (s : Store) (a b : Term) : Res :=
  (ev s a).bind fun _ s1 =>
    (ev s1 b).bind fun _ _ => eval_intersect_table

/-- `eval_union_table` (`src/eval.cpp:477`): schema copied from the
first table; the member sequences are concatenated and then passed
through `std::set<Term*>` — a set of *pointers*, which removes only
pointer-identical entries and reorders by address.  For operand trees
without node sharing (the only sharing the language permits is through
declarations) no entry is pointer-identical to another, so the member
multiset is exactly the concatenation; we model it as the concatenation
in order.  Structurally equal records in distinct nodes are *not*
removed. -/
def eval_union_table (sch1 m1 m2 : List Term) : Term :=
  .table sch1 (m1 ++ m2)

/-- `eval_union` (`src/eval.cpp:491`): evaluate both operands; if the
first is a table, combine with `eval_union_table` (a non-table second
operand is dereferenced as a table: undefined behaviour); if the first
is not a table the switch falls through with no `return`. -/
def eval_union (ev : Store → Term → Res) (s : Store) (a b : Term) : Res :=
  (ev s a).bind fun (v1, a2) s1 =>
    (ev s1 b).bind fun (v2, b2) s2 =>
      match v1 with
      | some (.table sch1 m1) =>
          match v2 with
          | some (.table _ m2) =>
              .ok (some (eval_union_table sch1 m1 m2), .union a2 b2) s2 []
          | _ => .undef []
      | _ => .undef []

/-- `eval_except_table` (`src/eval.cpp:504`): the difference
accumulator `Term_seq* diff` is never initialized; records of the first
table missing from the second are pushed through it, and it is handed
to the result table regardless — undefined behaviour on every path. -/
def eval_except_table : Res := .undef []

/-- `eval_except` (`src/eval.cpp:522`): evaluate both operands; a table
first operand reaches the uninitialized-accumulator
`eval_except_table`, anything else falls off the switch — undefined
behaviour either way, after both operands' effects. -/
def eval_except (ev : Store → Term → Res) (s : Store) (a b : Term) : Res :=
  (ev s a).bind fun _ s1 =>
    (ev s1 b).bind fun _ _ => eval_except_table

/-- The top-level dispatcher `eval` (`src/eval.cpp:537`): route by kind
tag; kinds not in the switch (the normal-form values among them) are
returned unchanged.  Fuel pays for the recursion through substituted
bodies. -/
def eval : Nat → Store → Term → Res
  | 0, _, _ => .oot
  | n + 1, s, t =>
      match t with
      | .if_ c a b => eval_if (eval n) s c a b
      | .and_ a b => eval_and (eval n) s a b
      | .or_ a b => eval_or (eval n) s a b
      | .not_ a => eval_not (eval n) s a
      | .equals a b => eval_equals (eval n) s a b
      | .less a b => eval_less (eval n) s a b
      | .succ a => eval_succ (eval n) s a
      | .pred a => eval_pred (eval n) s a
      | .iszero a => eval_iszero (eval n) s a
      | .app f a => eval_app (eval n) s f a
      | .call f args => eval_call (eval n) s f args
      | .ref d => eval_ref s d
      | .print e => eval_print (eval n) s e
      | .def_ d => eval_def (eval n) s d
      | .prog stmts => eval_prog (eval n) s stmts
      | .comma items => eval_comma s items
      | .proj _ => eval_proj s
      | .mem r m => eval_mem (eval n) s r m
      | .select_from_where _ _ _ => eval_select_from_where s
      | .join _ => eval_join s
      | .union a b => eval_union (eval n) s a b
      | .intersect a b => eval_intersect (eval n) s a b
      | .except_ a b => eval_except (eval n) s a b
      | v => .ok (some v, v) s []

/-- `step` (`src/eval.cpp:570`): single-step reduction is declared but
`lang_unreachable("not implemented")`. -/
def step (t : Term) : Res :=
  let _ := t
  .fatal []

mutual
/-- Erase every `Call` node's argument sequence.  Two terms agree after
masking exactly when they are identical outside `Call` argument
sequences — the in-place mutation point of `eval_call`. -/
def maskCallArgs : Term → Term
  | .call f _ => .call (maskCallArgs f) []
  | .true_ => .true_
  | .false_ => .false_
  | .int z => .int z
  | .unit => .unit
  | .if_ c t e => .if_ (maskCallArgs c) (maskCallArgs t) (maskCallArgs e)
  | .succ t => .succ (maskCallArgs t)
  | .pred t => .pred (maskCallArgs t)
  | .iszero t => .iszero (maskCallArgs t)
  | .abs x b => .abs x (maskCallArgs b)
  | .app f a => .app (maskCallArgs f) (maskCallArgs a)
  | .fn ps b => .fn ps (maskCallArgs b)
  | .var x => .var x
  | .ref d => .ref d
  | .def_ d => .def_ d
  | .print e => .print (maskCallArgs e)
  | .prog ts => .prog (maskCallArgsList ts)
  | .comma ts => .comma (maskCallArgsList ts)
  | .and_ a b => .and_ (maskCallArgs a) (maskCallArgs b)
  | .or_ a b => .or_ (maskCallArgs a) (maskCallArgs b)
  | .not_ a => .not_ (maskCallArgs a)
  | .equals a b => .equals (maskCallArgs a) (maskCallArgs b)
  | .less a b => .less (maskCallArgs a) (maskCallArgs b)
  | .name s => .name s
  | .init n v => .init n (maskCallArgs v)
  | .record ms => .record (maskCallArgsList ms)
  | .table s ms => .table (maskCallArgsList s) (maskCallArgsList ms)
  | .mem r m => .mem (maskCallArgs r) (maskCallArgs m)
  | .proj t => .proj (maskCallArgs t)
  | .select_from_where a b c =>
      .select_from_where (maskCallArgs a) (maskCallArgs b) (maskCallArgs c)
  | .join t => .join (maskCallArgs t)
  | .union a b => .union (maskCallArgs a) (maskCallArgs b)
  | .intersect a b => .intersect (maskCallArgs a) (maskCallArgs b)
  | .except_ a b => .except_ (maskCallArgs a) (maskCallArgs b)

/-- `maskCallArgs` mapped over a term sequence. -/
def maskCallArgsList : List Term → List Term
  | [] => []
  | t :: ts => maskCallArgs t :: maskCallArgsList ts
end


/-- Inversion of `Outcome.bind` at a successful result: the first
computation succeeded and the continuation succeeded, with outputs
concatenated in order. -/
theorem Outcome.bind_eq_ok {α β : Type} {r : Outcome α} {f : α → Store → Outcome β}
    {b : β} {s : Store} {o : List String} (h : r.bind f = .ok b s o) :
    ∃ a s1 o1 o2, r = .ok a s1 o1 ∧ f a s1 = .ok b s o2 ∧ o = o1 ++ o2 := by
  cases r with
  | ok a s1 o1 =>
      simp only [Outcome.bind] at h
      cases hf : f a s1 with
      | ok b2 s2 o2 =>
          rw [hf] at h
          simp only [Outcome.withOut] at h
          cases h
          exact ⟨a, s1, o1, o2, rfl, hf, rfl⟩
      | fatal o2 => rw [hf] at h; simp [Outcome.withOut] at h
      | undef o2 => rw [hf] at h; simp [Outcome.withOut] at h
      | oot => rw [hf] at h; simp [Outcome.withOut] at h
  | fatal o2 => simp [Outcome.bind] at h
  | undef o2 => simp [Outcome.bind] at h
  | oot => simp [Outcome.bind] at h

/-- `eval_mem` never returns normally: every path of its switch ends in
undefined behaviour. -/
theorem eval_mem_never_ok (ev : Store → Term → Res) (s : Store) (r m : Term)
    {v : Option Term × Term} {s2 : Store} {o : List String} :
    eval_mem ev s r m ≠ .ok v s2 o := by
  intro h
  unfold eval_mem at h
  split at h
  · obtain ⟨a1, t1, u1, w1, -, h, -⟩ := Outcome.bind_eq_ok h
    obtain ⟨a2, t2, u2, w2, -, h, -⟩ := Outcome.bind_eq_ok h
    obtain ⟨a3, t3, u3, w3, -, h, -⟩ := Outcome.bind_eq_ok h
    obtain ⟨a4, t4, u4, w4, -, h, -⟩ := Outcome.bind_eq_ok h
    exact Outcome.noConfusion h
  · obtain ⟨a1, t1, u1, w1, -, h, -⟩ := Outcome.bind_eq_ok h
    obtain ⟨a2, t2, u2, w2, -, h, -⟩ := Outcome.bind_eq_ok h
    exact Outcome.noConfusion h
  · exact Outcome.noConfusion h

/-- `eval_intersect` never returns normally. -/
theorem eval_intersect_never_ok (ev : Store → Term → Res) (s : Store) (a b : Term)
    {v : Option Term × Term} {s2 : Store} {o : List String} :
    eval_intersect ev s a b ≠ .ok v s2 o := by
  intro h
  unfold eval_intersect at h
  obtain ⟨a1, t1, u1, w1, -, h, -⟩ := Outcome.bind_eq_ok h
  obtain ⟨a2, t2, u2, w2, -, h, -⟩ := Outcome.bind_eq_ok h
  exact Outcome.noConfusion h

/-- `eval_except` never returns normally. -/
theorem eval_except_never_ok (ev : Store → Term → Res) (s : Store) (a b : Term)
    {v : Option Term × Term} {s2 : Store} {o : List String} :
    eval_except ev s a b ≠ .ok v s2 o := by
  intro h
  unfold eval_except at h
  obtain ⟨a1, t1, u1, w1, -, h, -⟩ := Outcome.bind_eq_ok h
  obtain ⟨a2, t2, u2, w2, -, h, -⟩ := Outcome.bind_eq_ok h
  exact Outcome.noConfusion h

/-- The statement loop leaves every statement node unchanged outside
`Call` argument sequences. -/
theorem evalStmts_mask (ev : Store → Term → Res)
    (hev : ∀ (s : Store) (t : Term) (v : Option Term × Term) (s2 : Store) (o : List String),
      ev s t = .ok v s2 o → maskCallArgs v.2 = maskCallArgs t) :
    ∀ (ts : List Term) (s : Store) (lv : Option Term) (us : List Term)
      (s2 : Store) (o : List String),
      evalStmts ev s ts = .ok (lv, us) s2 o → maskCallArgsList us = maskCallArgsList ts
  | [], s, lv, us, s2, o, h => by
      unfold evalStmts at h
      injection h with h1 h2 h3
      injection h1 with ha hb
      subst hb
      rfl
  | [t], s, lv, us, s2, o, h => by
      unfold evalStmts at h
      obtain ⟨⟨v, t2⟩, s1, o1, o2, hc, h, ho⟩ := Outcome.bind_eq_ok h
      injection h with h1 h2 h3
      injection h1 with ha hb
      subst hb
      simp only [maskCallArgsList]
      rw [hev s t (v, t2) s1 o1 hc]
  | t :: t2 :: ts, s, lv, us, s2, o, h => by
      unfold evalStmts at h
      obtain ⟨⟨v, tu⟩, s1, o1, o2, hc, h, ho⟩ := Outcome.bind_eq_ok h
      obtain ⟨⟨v2, tsu⟩, s3, o3, o4, hrest, h, ho2⟩ := Outcome.bind_eq_ok h
      injection h with h1 h2 h3
      injection h1 with ha hb
      subst hb
      simp only [maskCallArgsList]
      rw [hev s t (v, tu) s1 o1 hc, evalStmts_mask ev hev (t2 :: ts) s1 v2 tsu s3 o3 hrest]
      rfl


/-- Every successful evaluation leaves the input node unchanged outside
`Call` argument sequences: the in-place overwrite of a `Call`'s
argument sequence by `eval_call` is the only term mutation (the `Def`
value slot lives in the store). -/
theorem eval_mask :
    ∀ (n : Nat) (t : Term) (s : Store) (v : Option Term) (u : Term)
      (s2 : Store) (o : List String),
      eval n s t = .ok (v, u) s2 o → maskCallArgs u = maskCallArgs t
  | 0, t, s, v, u, s2, o, h => Outcome.noConfusion h
  | n+1, .if_ c a b, s, v, u, s2, o, h => by
      simp only [eval, eval_if] at h
      obtain ⟨⟨bv, c2⟩, s1, o1, o2, hc, h, ho⟩ := Outcome.bind_eq_ok h
      dsimp only at h
      split at h
      · obtain ⟨⟨v2, t1b⟩, s3, o3, o4, ha, h, ho2⟩ := Outcome.bind_eq_ok h
        dsimp only at h
        injection h with h1 h2 h3
        injection h1 with hA hB
        subst hB
        simp only [maskCallArgs]
        rw [eval_mask _ _ _ _ _ _ _ hc, eval_mask _ _ _ _ _ _ _ ha]
      · split at h
        · obtain ⟨⟨v2, t2b⟩, s3, o3, o4, hb, h, ho2⟩ := Outcome.bind_eq_ok h
          dsimp only at h
          injection h with h1 h2 h3
          injection h1 with hA hB
          subst hB
          simp only [maskCallArgs]
          rw [eval_mask _ _ _ _ _ _ _ hc, eval_mask _ _ _ _ _ _ _ hb]
        · exact Outcome.noConfusion h
  | n+1, .and_ a b, s, v, u, s2, o, h => by
      simp only [eval, eval_and] at h
      obtain ⟨⟨v1, a2⟩, s1, o1, o2, hA1, h, ho⟩ := Outcome.bind_eq_ok h
      dsimp only at h
      obtain ⟨⟨v2, b2⟩, s3, o3, o4, hB1, h, ho2⟩ := Outcome.bind_eq_ok h
      dsimp only at h
      injection h with h1 h2 h3
      injection h1 with hA hB
      subst hB
      simp only [maskCallArgs]
      rw [eval_mask _ _ _ _ _ _ _ hA1, eval_mask _ _ _ _ _ _ _ hB1]
  | n+1, .or_ a b, s, v, u, s2, o, h => by
      simp only [eval, eval_or] at h
      obtain ⟨⟨v1, a2⟩, s1, o1, o2, hA1, h, ho⟩ := Outcome.bind_eq_ok h
      dsimp only at h
      obtain ⟨⟨v2, b2⟩, s3, o3, o4, hB1, h, ho2⟩ := Outcome.bind_eq_ok h
      dsimp only at h
      injection h with h1 h2 h3
      injection h1 with hA hB
      subst hB
      simp only [maskCallArgs]
      rw [eval_mask _ _ _ _ _ _ _ hA1, eval_mask _ _ _ _ _ _ _ hB1]
  | n+1, .not_ a, s, v, u, s2, o, h => by
      simp only [eval, eval_not] at h
      obtain ⟨⟨v1, a2⟩, s1, o1, o2, hA1, h, ho⟩ := Outcome.bind_eq_ok h
      dsimp only at h
      split at h
      · injection h with h1 h2 h3
        injection h1 with hA hB
        subst hB
        simp only [maskCallArgs]
        rw [eval_mask _ _ _ _ _ _ _ hA1]
      · split at h
        · injection h with h1 h2 h3
          injection h1 with hA hB
          subst hB
          simp only [maskCallArgs]
          rw [eval_mask _ _ _ _ _ _ _ hA1]
        · exact Outcome.noConfusion h
  | n+1, .equals a b, s, v, u, s2, o, h => by
      simp only [eval, eval_equals] at h
      obtain ⟨⟨v1, a2⟩, s1, o1, o2, hA1, h, ho⟩ := Outcome.bind_eq_ok h
      dsimp only at h
      obtain ⟨⟨v2, b2⟩, s3, o3, o4, hB1, h, ho2⟩ := Outcome.bind_eq_ok h
      dsimp only at h
      split at h
      · injection h with h1 h2 h3
        injection h1 with hA hB
        subst hB
        simp only [maskCallArgs]
        rw [eval_mask _ _ _ _ _ _ _ hA1, eval_mask _ _ _ _ _ _ _ hB1]
      · exact Outcome.noConfusion h
  | n+1, .less a b, s, v, u, s2, o, h => by
      simp only [eval, eval_less] at h
      obtain ⟨⟨v1, a2⟩, s1, o1, o2, hA1, h, ho⟩ := Outcome.bind_eq_ok h
      dsimp only at h
      obtain ⟨⟨v2, b2⟩, s3, o3, o4, hB1, h, ho2⟩ := Outcome.bind_eq_ok h
      dsimp only at h
      split at h
      · injection h with h1 h2 h3
        injection h1 with hA hB
        subst hB
        simp only [maskCallArgs]
        rw [eval_mask _ _ _ _ _ _ _ hA1, eval_mask _ _ _ _ _ _ _ hB1]
      · exact Outcome.noConfusion h
  | n+1, .succ a, s, v, u, s2, o, h => by
      simp only [eval, eval_succ] at h
      obtain ⟨⟨v1, a2⟩, s1, o1, o2, hA1, h, ho⟩ := Outcome.bind_eq_ok h
      dsimp only at h
      split at h
      · injection h with h1 h2 h3
        injection h1 with hA hB
        subst hB
        simp only [maskCallArgs]
        rw [eval_mask _ _ _ _ _ _ _ hA1]
      · exact Outcome.noConfusion h
  | n+1, .pred a, s, v, u, s2, o, h => by
      simp only [eval, eval_pred] at h
      obtain ⟨⟨v1, a2⟩, s1, o1, o2, hA1, h, ho⟩ := Outcome.bind_eq_ok h
      dsimp only at h
      split at h
      · split at h <;>
          (injection h with h1 h2 h3
           injection h1 with hA hB
           subst hB
           simp only [maskCallArgs]
           rw [eval_mask _ _ _ _ _ _ _ hA1])
      · exact Outcome.noConfusion h
  | n+1, .iszero a, s, v, u, s2, o, h => by
      simp only [eval, eval_iszero] at h
      obtain ⟨⟨v1, a2⟩, s1, o1, o2, hA1, h, ho⟩ := Outcome.bind_eq_ok h
      dsimp only at h
      split at h
      · split at h <;>
          (injection h with h1 h2 h3
           injection h1 with hA hB
           subst hB
           simp only [maskCallArgs]
           rw [eval_mask _ _ _ _ _ _ _ hA1])
      · exact Outcome.noConfusion h
  | n+1, .app f a, s, v, u, s2, o, h => by
      simp only [eval, eval_app] at h
      obtain ⟨⟨vf, f2⟩, s1, o1, o2, hf, h, ho⟩ := Outcome.bind_eq_ok h
      dsimp only at h
      split at h
      · obtain ⟨⟨va, a2⟩, s3, o3, o4, ha, h, ho2⟩ := Outcome.bind_eq_ok h
        dsimp only at h
        split at h
        · obtain ⟨⟨r, u3⟩, s5, o5, o6, hb, h, ho3⟩ := Outcome.bind_eq_ok h
          dsimp only at h
          injection h with h1 h2 h3
          injection h1 with hA hB
          subst hB
          simp only [maskCallArgs]
          rw [eval_mask _ _ _ _ _ _ _ hf, eval_mask _ _ _ _ _ _ _ ha]
        · exact Outcome.noConfusion h
      · exact Outcome.noConfusion h
  | n+1, .call f args, s, v, u, s2, o, h => by
      simp only [eval, eval_call] at h
      obtain ⟨⟨vf, f2⟩, s1, o1, o2, hf, h, ho⟩ := Outcome.bind_eq_ok h
      dsimp only at h
      split at h
      · obtain ⟨ovs, s3, o3, o4, hargs, h, ho2⟩ := Outcome.bind_eq_ok h
        split at h
        · split at h
          · obtain ⟨⟨r, u3⟩, s5, o5, o6, hb, h, ho3⟩ := Outcome.bind_eq_ok h
            dsimp only at h
            injection h with h1 h2 h3
            injection h1 with hA hB
            subst hB
            simp only [maskCallArgs]
            rw [eval_mask _ _ _ _ _ _ _ hf]
          · exact Outcome.noConfusion h
        · exact Outcome.noConfusion h
      · exact Outcome.noConfusion h
  | n+1, .ref d, s, v, u, s2, o, h => by
      simp only [eval, eval_ref] at h
      split at h <;>
        (injection h with h1 h2 h3
         injection h1 with hA hB
         subst hB
         rfl)
  | n+1, .def_ d, s, v, u, s2, o, h => by
      simp only [eval, eval_def] at h
      split at h
      · obtain ⟨⟨v1, u1⟩, s1, o1, o2, h0, h, ho⟩ := Outcome.bind_eq_ok h
        dsimp only at h
        injection h with h1 h2 h3
        injection h1 with hA hB
        subst hB
        rfl
      · injection h with h1 h2 h3
        injection h1 with hA hB
        subst hB
        rfl
  | n+1, .print e, s, v, u, s2, o, h => by
      simp only [eval, eval_print] at h
      obtain ⟨⟨v1, e2⟩, s1, o1, o2, he, h, ho⟩ := Outcome.bind_eq_ok h
      dsimp only at h
      split at h <;>
        (injection h with h1 h2 h3
         injection h1 with hA hB
         subst hB
         simp only [maskCallArgs]
         rw [eval_mask _ _ _ _ _ _ _ he])
  | n+1, .prog stmts, s, v, u, s2, o, h => by
      simp only [eval, eval_prog] at h
      split at h
      · exact Outcome.noConfusion h
      · obtain ⟨⟨lv, us⟩, s1, o1, o2, hst, h, ho⟩ := Outcome.bind_eq_ok h
        dsimp only at h
        injection h with h1 h2 h3
        injection h1 with hA hB
        subst hB
        simp only [maskCallArgs]
        rw [evalStmts_mask (eval n)
          (fun s t v s2 o hh => eval_mask n t s v.1 v.2 s2 o hh) _ _ _ _ _ _ hst]
  | n+1, .comma items, s, v, u, s2, o, h => by
      simp only [eval, eval_comma] at h
      injection h with h1 h2 h3
      injection h1 with hA hB
      subst hB
      rfl
  | n+1, .proj t0, s, v, u, s2, o, h => by
      simp only [eval, eval_proj] at h
      exact Outcome.noConfusion h
  | n+1, .mem r m, s, v, u, s2, o, h => by
      simp only [eval] at h
      exact absurd h (eval_mem_never_ok _ _ _ _)
  | n+1, .select_from_where t1 t2 t3, s, v, u, s2, o, h => by
      simp only [eval, eval_select_from_where] at h
      exact Outcome.noConfusion h
  | n+1, .join t0, s, v, u, s2, o, h => by
      simp only [eval, eval_join] at h
      exact Outcome.noConfusion h
  | n+1, .union a b, s, v, u, s2, o, h => by
      simp only [eval, eval_union] at h
      obtain ⟨⟨v1, a2⟩, s1, o1, o2, hA1, h, ho⟩ := Outcome.bind_eq_ok h
      dsimp only at h
      obtain ⟨⟨v2, b2⟩, s3, o3, o4, hB1, h, ho2⟩ := Outcome.bind_eq_ok h
      dsimp only at h
      split at h
      · split at h
        · injection h with h1 h2 h3
          injection h1 with hA hB
          subst hB
          simp only [maskCallArgs]
          rw [eval_mask _ _ _ _ _ _ _ hA1, eval_mask _ _ _ _ _ _ _ hB1]
        · exact Outcome.noConfusion h
      · exact Outcome.noConfusion h
  | n+1, .intersect a b, s, v, u, s2, o, h => by
      simp only [eval] at h
      exact absurd h (eval_intersect_never_ok _ _ _ _)
  | n+1, .except_ a b, s, v, u, s2, o, h => by
      simp only [eval] at h
      exact absurd h (eval_except_never_ok _ _ _ _)
  | n+1, .true_, s, v, u, s2, o, h => by
      simp only [eval] at h
      injection h with h1 h2 h3
      injection h1 with hA hB
      subst hB
      rfl
  | n+1, .false_, s, v, u, s2, o, h => by
      simp only [eval] at h
      injection h with h1 h2 h3
      injection h1 with hA hB
      subst hB
      rfl
  | n+1, .int z, s, v, u, s2, o, h => by
      simp only [eval] at h
      injection h with h1 h2 h3
      injection h1 with hA hB
      subst hB
      rfl
  | n+1, .unit, s, v, u, s2, o, h => by
      simp only [eval] at h
      injection h with h1 h2 h3
      injection h1 with hA hB
      subst hB
      rfl
  | n+1, .abs x b, s, v, u, s2, o, h => by
      simp only [eval] at h
      injection h with h1 h2 h3
      injection h1 with hA hB
      subst hB
      rfl
  | n+1, .fn ps b, s, v, u, s2, o, h => by
      simp only [eval] at h
      injection h with h1 h2 h3
      injection h1 with hA hB
      subst hB
      rfl
  | n+1, .var x, s, v, u, s2, o, h => by
      simp only [eval] at h
      injection h with h1 h2 h3
      injection h1 with hA hB
      subst hB
      rfl
  | n+1, .name nm, s, v, u, s2, o, h => by
      simp only [eval] at h
      injection h with h1 h2 h3
      injection h1 with hA hB
      subst hB
      rfl
  | n+1, .init nm w, s, v, u, s2, o, h => by
      simp only [eval] at h
      injection h with h1 h2 h3
      injection h1 with hA hB
      subst hB
      rfl
  | n+1, .record ms, s, v, u, s2, o, h => by
      simp only [eval] at h
      injection h with h1 h2 h3
      injection h1 with hA hB
      subst hB
      rfl
  | n+1, .table sch ms, s, v, u, s2, o, h => by
      simp only [eval] at h
      injection h with h1 h2 h3
      injection h1 with hA hB
      subst hB
      rfl

/-- Claim C1, counterexample: evaluating a reference to a declaration
whose stored term `succ 0` has not yet been evaluated performs no
evaluation and no mutation — the raw stored term comes back unevaluated
(`succ 0`, not `1`) and the store is unchanged, contradicting
"evaluating the first `Ref(d)` evaluates `someTerm` exactly once and
overwrites `d`'s stored value with the evaluated result". -/
theorem claim1_ref_does_not_evaluate :
    eval 1 [some (.succ (.int 0))] (.ref 0)
      = .ok (some (.succ (.int 0)), .ref 0) [some (.succ (.int 0))] []
    ∧ (Term.succ (.int 0) ≠ .int 1) := by
  refine ⟨rfl, ?_⟩
  intro h
  exact Term.noConfusion h

/-- Claim C1 (amended): declaration memoization is performed by
evaluating the `Def` node itself, not the first `Ref`: evaluating the
declaration evaluates its stored term once and overwrites the value
slot with the result, and thereafter evaluating any `Ref(d)` performs
no re-evaluation and no mutation, returning exactly the cached value
(it costs no evaluation fuel and produces no output or store change
regardless of the cached term). -/
theorem claim1_decl_memoization (f : Nat) (s : Store) (d : Nat) (t0 : Term)
    (v : Option Term) (u : Term) (s1 : Store) (o : List String)
    (hcell : s[d]? = some (some t0)) (hev : eval f s t0 = .ok (v, u) s1 o) :
    eval (f + 1) s (.def_ d) = .ok (some (.def_ d), .def_ d) (s1.set d v) o
    ∧ ∀ (g : Nat) (s2 : Store) (w : Term), s2[d]? = some (some w) →
        eval (g + 1) s2 (.ref d) = .ok (some w, .ref d) s2 [] := by
  constructor
  · simp [eval, eval_def, hcell, hev, Outcome.bind, Outcome.withOut]
  · intro g s2 w hw
    simp [eval, eval_ref, hw]

/-- Witness for C1: with the store holding `succ 0` at declaration `0`,
evaluating the declaration caches `1`; a reference under the updated
store returns the cached `1` unchanged. -/
theorem claim1_memoization_witness :
    eval 4 [some (.succ (.int 0))] (.def_ 0)
      = .ok (some (.def_ 0), .def_ 0) [some (.int 1)] []
    ∧ eval 1 [some (.int 1)] (.ref 0) = .ok (some (.int 1), .ref 0) [some (.int 1)] [] := by
  have h := claim1_decl_memoization 3 [some (.succ (.int 0))] 0 (.succ (.int 0))
    (some (.int 1)) (.succ (.int 0)) [some (.succ (.int 0))] [] rfl rfl
  exact ⟨h.1, h.2 0 [some (.int 1)] (.int 1) rfl⟩

/-- Claim C2: table set laws fail in the code.  On a one-row table `t`:
`Intersect(t, t)` reaches the uninitialized accumulator of
`eval_intersect_table` (undefined behaviour, not `t` deduplicated);
`Except(t, t)` reaches the uninitialized difference sequence of
`eval_except_table` (undefined behaviour, not an empty table); and
`Union(t, t)` on two structurally equal single-row tables returns a
member collection holding the *same* record twice — the
`std::set<Term*>` pass removes only pointer-identical entries, so the
result is not duplicate-free under structural equality (`is_same` holds
on the two retained records). -/
theorem claim2_table_set_laws :
    eval 10 [] (.intersect (.table [.name "a"] [.record [.init "a" (.int 1)]])
                           (.table [.name "a"] [.record [.init "a" (.int 1)]])) = .undef []
    ∧ eval 10 [] (.except_ (.table [.name "a"] [.record [.init "a" (.int 1)]])
                           (.table [.name "a"] [.record [.init "a" (.int 1)]])) = .undef []
    ∧ eval 10 [] (.union (.table [.name "a"] [.record [.init "a" (.int 1)]])
                         (.table [.name "a"] [.record [.init "a" (.int 1)]]))
        = .ok (some (.table [.name "a"] [.record [.init "a" (.int 1)], .record [.init "a" (.int 1)]]),
            .union (.table [.name "a"] [.record [.init "a" (.int 1)]])
                   (.table [.name "a"] [.record [.init "a" (.int 1)]])) [] []
    ∧ is_same (.record [.init "a" (.int 1)]) (.record [.init "a" (.int 1)]) = true :=
  ⟨rfl, rfl, rfl, rfl⟩

/-- Claim C3: multi-argument call.  (1) When the target evaluates to an
`Fn`, the arguments are evaluated left-to-right (`evalSeq`), all
parameters are substituted simultaneously for the evaluated arguments,
and the substituted body is evaluated — outputs in order, argument
sequence overwritten with the values.  (2) An arity mismatch between
parameter list and argument list is fatal.  (3) A non-`Fn` target is
fatal, before any argument is evaluated.  (4) Substitution is
simultaneous: with `v1 = \w. y` containing a free `y`-reference,
`Call(Fn([x,y], x 5), [v1, 2])` yields `y` untouched — sequential
substitution would have produced `2`. -/
theorem claim3_multi_arg_call (n : Nat) (s : Store) (fE : Term) (args : List Term) :
    (∀ (parms : List String) (body f2 : Term) (s1 : Store) (o1 : List String)
        (ovs : List (Option Term)) (vs : List Term) (s2 : Store) (o2 : List String)
        (r : Option Term) (u3 : Term) (s3 : Store) (o3 : List String),
      eval n s fE = .ok (some (.fn parms body), f2) s1 o1 →
      evalSeq (eval n) s1 args = .ok ovs s2 o2 →
      allSome ovs = some vs →
      parms.length = vs.length →
      eval n s2 (subst (parms.zip vs) body) = .ok (r, u3) s3 o3 →
      eval (n + 1) s (.call fE args) = .ok (r, .call f2 vs) s3 (o1 ++ o2 ++ o3))
    ∧ (∀ (parms : List String) (body f2 : Term) (s1 : Store) (o1 : List String)
        (ovs : List (Option Term)) (vs : List Term) (s2 : Store) (o2 : List String),
      eval n s fE = .ok (some (.fn parms body), f2) s1 o1 →
      evalSeq (eval n) s1 args = .ok ovs s2 o2 →
      allSome ovs = some vs →
      parms.length ≠ vs.length →
      eval (n + 1) s (.call fE args) = .fatal (o1 ++ o2))
    ∧ (∀ (vf : Option Term) (f2 : Term) (s1 : Store) (o1 : List String),
      eval n s fE = .ok (vf, f2) s1 o1 →
      (∀ (ps : List String) (b : Term), vf ≠ some (.fn ps b)) →
      eval (n + 1) s (.call fE args) = .fatal o1)
    ∧ eval 10 [] (.call (.fn ["x", "y"] (.app (.var "x") (.int 5))) [.abs "w" (.var "y"), .int 2])
        = .ok (some (.var "y"),
            .call (.fn ["x", "y"] (.app (.var "x") (.int 5))) [.abs "w" (.var "y"), .int 2]) [] [] := by
  refine ⟨?_, ?_, ?_, rfl⟩
  · intro parms body f2 s1 o1 ovs vs s2 o2 r u3 s3 o3 h1 h2 h3 h4 h5
    simp [eval, eval_call, h1, h2, h3, h4, h5, Outcome.bind, Outcome.withOut]
  · intro parms body f2 s1 o1 ovs vs s2 o2 h1 h2 h3 h4
    simp [eval, eval_call, h1, h2, h3, h4, Outcome.bind, Outcome.withOut]
  · intro vf f2 s1 o1 h1 h2
    rcases vf with _ | t
    · simp [eval, eval_call, h1, Outcome.bind, Outcome.withOut]
    · cases t <;> simp [eval, eval_call, h1, Outcome.bind, Outcome.withOut]
      exact absurd rfl (h2 _ _)

/-- Witness for C3: `(fn x => x) 3` evaluates to `3` through the call
rule, with the argument sequence overwritten by the evaluated value. -/
theorem claim3_call_witness :
    eval 2 [] (.call (.fn ["x"] (.var "x")) [.int 3])
      = .ok (some (.int 3), .call (.fn ["x"] (.var "x")) [.int 3]) [] ([] ++ [] ++ []) :=
  (claim3_multi_arg_call 1 [] (.fn ["x"] (.var "x")) [.int 3]).1
    ["x"] (.var "x") (.fn ["x"] (.var "x")) [] [] [some (.int 3)] [.int 3] [] []
    (some (.int 3)) (.int 3) [] [] rfl rfl rfl rfl rfl

/-- Claim C4: natural-number arithmetic.  For every integer `n ≥ 0` and
any store: `Pred(Succ(n))` evaluates to `n`; `Pred(0)` saturates to `0`;
`Iszero(0)` is `true`; `Iszero(Succ(n))` is `false`. -/
theorem claim4_nat_arithmetic (n : Int) (f : Nat) (s : Store) (h : 0 ≤ n) :
    eval (f + 3) s (.pred (.succ (.int n))) = .ok (some (.int n), .pred (.succ (.int n))) s []
    ∧ eval (f + 2) s (.pred (.int 0)) = .ok (some (.int 0), .pred (.int 0)) s []
    ∧ eval (f + 2) s (.iszero (.int 0)) = .ok (some .true_, .iszero (.int 0)) s []
    ∧ eval (f + 3) s (.iszero (.succ (.int n))) = .ok (some .false_, .iszero (.succ (.int n))) s [] := by
  have h1 : n + 1 ≠ 0 := by omega
  refine ⟨?_, ?_, ?_, ?_⟩
  · simp [eval, eval_pred, eval_succ, Outcome.bind, Outcome.withOut, h1]
  · simp [eval, eval_pred, Outcome.bind, Outcome.withOut]
  · simp [eval, eval_iszero, Outcome.bind, Outcome.withOut]
  · simp [eval, eval_iszero, eval_succ, Outcome.bind, Outcome.withOut, h1]

/-- Witness for C4 at `n = 2`. -/
theorem claim4_witness :
    (0 : Int) ≤ 2
    ∧ eval 3 [] (.pred (.succ (.int 2))) = .ok (some (.int 2), .pred (.succ (.int 2))) [] [] :=
  ⟨by decide, (claim4_nat_arithmetic 2 0 [] (by decide)).1⟩

/-- Claim C5: `Mem` dispatch is broken in the code.  On a record target
with a matching field the evaluation ends in undefined behaviour — the
`record_term` case of `eval_mem` discards the projection result and
falls through into the `table_term` case, which also returns nothing —
even though `eval_record_project` itself would have found the field
(second conjunct). -/
theorem claim5_mem_dispatch :
    eval 10 [] (.mem (.record [.init "a" (.int 1)]) (.name "a")) = .undef []
    ∧ eval_record_project (some (.name "a")) [.init "a" (.int 1)] = some (.int 1) :=
  ⟨rfl, rfl⟩

/-- Claim C6: program sequencing.  An empty statement sequence is not
rejected: `eval_prog` returns its uninitialized result variable —
undefined behaviour (first conjunct).  A non-empty program evaluates
its statements in order (the printed lines appear in statement order)
and returns the last statement's value (second conjunct). -/
theorem claim6_program_sequencing :
    eval 1 [] (.prog []) = .undef []
    ∧ eval 10 [] (.prog [.print (.succ (.succ (.int 0))), .print (.iszero (.int 0))])
        = .ok (some .unit, .prog [.print (.succ (.succ (.int 0))), .print (.iszero (.int 0))])
            [] ["2\n", "true\n"] :=
  ⟨rfl, rfl⟩

/-- Claim C7, counterexample: evaluation is not idempotent on every
term.  With declaration `0` holding the unevaluated term `succ 0`,
`eval(Ref 0)` returns the raw stored term `succ 0`, but evaluating that
result again yields `1 ≠ succ 0`, so `eval(eval(t)) ≠ eval(t)` at
`t = Ref 0`. -/
theorem claim7_idempotence_fails :
    eval 10 [some (.succ (.int 0))] (.ref 0)
      = .ok (some (.succ (.int 0)), .ref 0) [some (.succ (.int 0))] []
    ∧ eval 10 [some (.succ (.int 0))] (.succ (.int 0))
      = .ok (some (.int 1), .succ (.int 0)) [some (.succ (.int 0))] []
    ∧ (Term.int 1 ≠ .succ (.int 0)) :=
  ⟨rfl, rfl, fun h => Term.noConfusion h⟩

/-- Claim C7 (amended): evaluation is reflexive on normal forms —
evaluating a value (`True`, `False`, `Int`, `Unit`, `Abs`, `Fn`,
`Table`, `Record`) returns it unchanged with no effects — and is
therefore idempotent on every term whose evaluation yields a value;
idempotence does not hold for terms whose evaluation returns a
non-value (a `Ref` to a not-yet-evaluated declaration). -/
theorem claim7_eval_reflexive (f : Nat) (s : Store) (v : Term) (hv : isValue v = true) :
    eval (f + 1) s v = .ok (some v, v) s []
    ∧ ∀ (g : Nat) (s0 s1 s2 : Store) (t u : Term) (o : List String),
        eval g s0 t = .ok (some v, u) s1 o →
        eval (f + 1) s2 v = .ok (some v, v) s2 [] := by
  have refl0 : ∀ (f0 : Nat) (s0 : Store) (w : Term), isValue w = true →
      eval (f0 + 1) s0 w = .ok (some w, w) s0 [] := by
    intro f0 s0 w hw
    cases w <;> first | rfl | simp [isValue] at hw
  exact ⟨refl0 f s v hv, fun g s0 s1 s2 t u o _ => refl0 f s2 v hv⟩

/-- Witness for C7: `fn` values evaluate to themselves. -/
theorem claim7_reflexivity_witness :
    isValue (.fn ["x"] (.var "x")) = true
    ∧ eval 1 [] (.fn ["x"] (.var "x"))
        = .ok (some (.fn ["x"] (.var "x")), .fn ["x"] (.var "x")) [] [] :=
  ⟨rfl, (claim7_eval_reflexive 0 [] (.fn ["x"] (.var "x")) rfl).1⟩

/-- Claim C8: `Not` on non-booleans.  The code negates proper booleans
(second and third conjuncts), but on a non-boolean operand `eval_not`
falls off its end without returning — undefined behaviour, not a
reported type error (first conjunct, at `Not(0)`). -/
theorem claim8_not_non_boolean :
    eval 2 [] (.not_ (.int 0)) = .undef []
    ∧ eval 2 [] (.not_ .true_) = .ok (some .false_, .not_ .true_) [] []
    ∧ eval 2 [] (.not_ .false_) = .ok (some .true_, .not_ .false_) [] [] :=
  ⟨rfl, rfl, rfl⟩

/-- Claim C9: `Print` is not the sole observable effect.  Evaluating
the pure comparison `1 < 2` writes the two leftover debug chunks
`pretty(t1)`, `pretty(t2)` to the output stream (first and second
conjuncts), while `Print` itself writes exactly one line (third
conjunct). -/
theorem claim9_print_sole_effect :
    eval 2 [] (.less (.int 1) (.int 2)) = .ok (some .true_, .less (.int 1) (.int 2)) [] ["1", "2"]
    ∧ (["1", "2"] : List String) ≠ []
    ∧ eval 2 [] (.print (.int 3)) = .ok (some .unit, .print (.int 3)) [] ["3\n"] := by
  refine ⟨rfl, ?_, rfl⟩
  simp

/-- Claim C10, counterexample: evaluating a `Call` mutates the node's
argument sequence — the input `Call(fn x => x, [succ 0])` comes back
with its argument sequence overwritten to `[1]`, which differs from the
original payload. -/
theorem claim10_call_args_mutated :
    eval 10 [] (.call (.fn ["x"] (.var "x")) [.succ (.int 0)])
      = .ok (some (.int 1), .call (.fn ["x"] (.var "x")) [.int 1]) [] []
    ∧ (Term.call (.fn ["x"] (.var "x")) [.int 1] ≠ .call (.fn ["x"] (.var "x")) [.succ (.int 0)]) := by
  refine ⟨rfl, ?_⟩
  intro h
  injection h with h1 h2
  injection h2 with h3 h4
  exact Term.noConfusion h3

/-- Claim C10 (amended): during evaluation the only term mutations are
the documented `Def` value-slot overwrite (which lives in the store)
and the overwrite of a `Call` node's argument sequence with the
evaluated arguments; outside `Call` argument sequences every node of
the input term is returned unchanged (`maskCallArgs` erases exactly the
`Call` argument sequences). -/
theorem claim10_term_immutability (n : Nat) (t : Term) (s : Store) (v : Option Term)
    (u : Term) (s2 : Store) (o : List String)
    (h : eval n s t = .ok (v, u) s2 o) :
    maskCallArgs u = maskCallArgs t :=
  eval_mask n t s v u s2 o h

/-- Witness for C10: the mutated call node of the counterexample input
agrees with the original outside its argument sequence. -/
theorem claim10_immutability_witness :
    maskCallArgs (.call (.fn ["x"] (.var "x")) [.int 1])
      = maskCallArgs (.call (.fn ["x"] (.var "x")) [.succ (.int 0)]) :=
  claim10_term_immutability 10 (.call (.fn ["x"] (.var "x")) [.succ (.int 0)]) []
    (some (.int 1)) (.call (.fn ["x"] (.var "x")) [.int 1]) [] [] rfl
